import Mathlib

/-!
Verification of the step-sequencer music engine in `src/src/App.js`
(the final App component in that file: track-definition parser, note
table, scheduler, offline renderer and WAV encoder).  All definitions
below are shallow embeddings translated from that source; the theorems
check the frozen claims about it.

JavaScript floats are modelled as exact rationals.  To keep every
definition kernel-executable, rational values are built with `mkRat`
and wrapper operations (`qmul`, `qdiv`) that reduce in the kernel;
bridge lemmas relate them to the ordinary `ℚ` operations.  JavaScript
string methods are modelled by structurally recursive functions on the
underlying character lists.
-/

namespace MusicIDE

/-! ### Kernel-reducible rational helpers -/

/-- Multiplication of rationals via `mkRat` (kernel-reducible). -/
def qmul (a b : ℚ) : ℚ := mkRat (a.num * b.num) (a.den * b.den)

/-- Division of rationals via `mkRat` (kernel-reducible); division by
zero yields zero, exactly as for `ℚ`. -/
def qdiv (a b : ℚ) : ℚ :=
  let n := a.num * (b.den : Int)
  let d := (a.den : Int) * b.num
  mkRat (if d < 0 then -n else n) d.natAbs

/-- Addition of rationals via `mkRat` (kernel-reducible). -/
def qadd (a b : ℚ) : ℚ := mkRat (a.num * b.den + b.num * a.den) (a.den * b.den)

/-! ### JavaScript string methods, on character lists -/

/-- Auxiliary splitter: cut the character list at every character
satisfying `p`, keeping empty pieces (JS `String.split` semantics). -/
def splitPredAux (p : Char → Bool) : List Char → List Char → List (List Char)
  | [], acc => [acc.reverse]
  | c :: rest, acc =>
      if p c then acc.reverse :: splitPredAux p rest []
      else splitPredAux p rest (c :: acc)

/-- JS `s.split(sep)` for a one-character separator. -/
def jsSplitChar (sep : Char) (s : String) : List String :=
  (splitPredAux (fun c => c = sep) s.data []).map String.mk

/-- JS `s.trim()`. -/
def jsTrim (s : String) : String :=
  String.mk (((s.data.dropWhile Char.isWhitespace).reverse.dropWhile
    Char.isWhitespace).reverse)

/-- JS `s.toLowerCase()` (ASCII case folding suffices for this input
vocabulary). -/
def jsToLower (s : String) : String := String.mk (s.data.map Char.toLower)

/-- JS `s.substring(n)` / `s.slice(n)`. -/
def jsDrop (n : ℕ) (s : String) : String := String.mk (s.data.drop n)

/-- JS `s.startsWith(p)`. -/
def jsStartsWith (p s : String) : Bool := p.data.isPrefixOf s.data

/-- JS `parseInt(s, 10)`: skip leading whitespace, optional sign, then
the maximal run of leading decimal digits; `none` models `NaN`. -/
def parseIntJS (s : String) : Option Int :=
  let digitsVal : List Char → Option Nat := fun l =>
    let ds := l.takeWhile Char.isDigit
    if ds = [] then none
    else some (ds.foldl (fun a c => a * 10 + (c.toNat - 48)) 0)
  match s.data.dropWhile Char.isWhitespace with
  | '-' :: rest => (digitsVal rest).map (fun n => -(n : Int))
  | '+' :: rest => (digitsVal rest).map (fun n => (n : Int))
  | rest => (digitsVal rest).map (fun n => (n : Int))

/-! ### Track-definition parser -/

/-- Result record of `parseSingleTrackDefinition`. -/
structure TrackRec where
  volume : ℚ
  instrumentType : String
  noteSequence : String
deriving DecidableEq

/-- JS `notes.replace(/[[\]]/g, '')`: delete every `[` and `]`. -/
def stripBrackets (s : String) : String :=
  String.mk (s.data.filter (fun c => ¬(c = '[' ∨ c = ']')))

/-- `parseSingleTrackDefinition` from App.js: split the clause on single
spaces; a part starting with `v=` updates the volume (`parseInt / 10`,
kept only when not NaN); any other part containing `=` sets the
instrument (trimmed; brackets are NOT removed from it) and the note
sequence (brackets removed, trimmed).  Defaults: volume 0.5,
instrument `synth`, empty sequence. -/
def parseSingleTrackDefinition (definition : String) : TrackRec :=
  (jsSplitChar ' ' definition).foldl (fun acc part =>
    if jsStartsWith "v=" part then
      match parseIntJS (jsDrop 2 part) with
      | some v => { acc with volume := mkRat v 10 }
      | none => acc
    else if part.data.contains '=' then
      let ps := jsSplitChar '=' part
      { acc with
          instrumentType := jsTrim (ps.headD ""),
          noteSequence := jsTrim (stripBrackets (ps.getD 1 "")) }
    else acc)
    ⟨mkRat 1 2, "synth", ""⟩

/-- `parseAllTrackDefinitions` from App.js: split the whole
configuration string at every comma, trim each piece, drop empties. -/
def parseAllTrackDefinitions (s : String) : List String :=
  ((jsSplitChar ',' s).map jsTrim).filter (fun d => d.length > 0)

/-- Note-sequence tokenization used by the tick callback and the
exporter: `.toLowerCase().split(/[\s,]+/).map(trim).filter(≠ '')`. -/
def tokenize (s : String) : List String :=
  (((splitPredAux (fun c => c.isWhitespace ∨ c = ',') (jsToLower s).data []).map
      (fun l => jsTrim (String.mk l))).filter (fun t => t ≠ ""))

/-- `noteMapping` from App.js.  The entry `'-': null` and absent keys
are both falsy in the JS truthiness test `if (mappedNote)`, so both are
modelled as `none`; the literal rest token `-` is distinguished by a
separate string comparison exactly as in the tick callback. -/
def noteMapping (t : String) : Option String :=
  List.lookup t
    [("do", "C4"), ("do4", "C4"), ("re", "D4"), ("mi", "E4"), ("fa", "F4"),
     ("sol", "G4"), ("la", "A4"), ("si", "B4"), ("do5", "C5"),
     ("re4", "D4"), ("mi4", "E4"), ("fa4", "F4"), ("sol4", "G4"),
     ("la4", "A4"), ("si4", "B4"),
     ("kick", "Kick"), ("snare", "Snare"), ("hihat", "Hi-Hat")]

/-- `frequencies` table from App.js (Hz values as exact rationals). -/
def frequencies (n : String) : Option ℚ :=
  List.lookup n
    [("C4", mkRat 26163 100), ("D4", mkRat 29366 100), ("E4", mkRat 32963 100),
     ("F4", mkRat 34923 100), ("G4", mkRat 392 1), ("A4", mkRat 440 1),
     ("B4", mkRat 49388 100), ("C5", mkRat 52325 100)]

/-- The grid minimum (`gridLength` constant in App.js). -/
def gridLength : ℕ := 16

/-- Step count of one clause, as computed inside the `maxLength`
reduce: `noteSequence.toLowerCase().split(/[\s,]+/).filter(≠'').length`. -/
def trackLen (cl : String) : ℕ :=
  (tokenize (parseSingleTrackDefinition cl).noteSequence).length

/-- The `maxLength` reduce from `startPlayback` / `exportToWAV`: fold
`Math.max` over all clause step counts, starting from `gridLength`. -/
def computeMaxLength (cfg : String) : ℕ :=
  (parseAllTrackDefinitions cfg).foldl (fun m cl => max m (trackLen cl)) gridLength

/-- One sixteenth-note tick in seconds: `60 / bpm / 4` (the live loop
uses `60000 / bpm / 4` milliseconds, the exporter `60 / bpm / 4`
seconds). -/
def tickSec (bpm : ℚ) : ℚ := qdiv (qdiv (mkRat 60 1) bpm) (mkRat 4 1)

/-- Note duration in seconds: 90% of a tick, on both paths. -/
def noteDurationSec (bpm : ℚ) : ℚ := qmul (tickSec bpm) (mkRat 9 10)

/-! ### Voices and `playSound` -/

/-- Where a voice's final output node is connected (end of `playSound`):
live voices go to the master gain plus a delay send, offline voices go
straight to the offline context's destination. -/
inductive Route where
  | masterAndDelay (send : ℚ)
  | destination
deriving DecidableEq

/-- An instantiated voice: which synthesis routine ran and with what
parameters.  `noise` records the values drawn from the random noise
generator (`Math.random`) where the routine fills a noise buffer
(guitar, snare, hi-hat); oscillator-only routines draw nothing. -/
structure Voice where
  instrument : String
  note : String
  freq : Option ℚ
  volume : ℚ
  startTime : ℚ
  stopTime : ℚ
  noise : List Int
deriving DecidableEq

/-- Outcome of one `playSound` call: silently return (missing note,
missing frequency, unknown instrument), create a voice routed somewhere,
or throw (`drumSounds[noteName]` is undefined and is then called). -/
inductive PlayResult where
  | silent
  | voice (v : Voice) (r : Route)
  | crash
deriving DecidableEq

/-- A noise buffer of `n` samples drawn sequentially from the random
stream `rng`, starting at position `ctr`. -/
def noiseBuf (rng : ℕ → Int) (ctr n : ℕ) : List Int :=
  (List.range n).map (fun i => rng (ctr + i))

/-- `playSound` from App.js.  `live` is the JS test
`context === audioContextRef.current`; `sampleRate` is the context's
sample rate (noise buffer sizes depend on it); `rng`/`ctr` model the
global `Math.random` stream and how many draws happened so far.
Returns the play outcome and the updated draw counter. -/
def playSound (instrumentType noteName : String) (volume duration : ℚ)
    (live : Bool) (time : ℚ) (sampleRate : ℕ) (rng : ℕ → Int) (ctr : ℕ) :
    PlayResult × ℕ :=
  if noteName = "" then (.silent, ctr)
  else
    let frequency := frequencies noteName
    let delaySend : ℚ := mkRat 1 5
    let route : Route := if live then .masterAndDelay delaySend else .destination
    if instrumentType = "synth" ∨ instrumentType = "piano" ∨
        instrumentType = "guitar" ∨ instrumentType = "8bit" ∨
        instrumentType = "16bit" then
      match frequency with
      | none => (.silent, ctr)
      | some f =>
        if instrumentType = "guitar" then
          -- playGuitarNote fills a noise buffer of `context.sampleRate` samples
          (.voice ⟨instrumentType, noteName, some f, volume, time,
              qadd time duration, noiseBuf rng ctr sampleRate⟩ route,
            ctr + sampleRate)
        else
          (.voice ⟨instrumentType, noteName, some f, volume, time,
              qadd time duration, []⟩ route, ctr)
    else if instrumentType = "drums" then
      -- drumSounds lookup; stop time is `time + 0.5` for every drum
      if noteName = "Kick" then
        (.voice ⟨"drums", noteName, none, volume, time, qadd time (mkRat 1 2),
            []⟩ route, ctr)
      else if noteName = "Snare" then
        -- snare noise buffer: `context.sampleRate * 0.5` samples
        (.voice ⟨"drums", noteName, none, volume, time, qadd time (mkRat 1 2),
            noiseBuf rng ctr (sampleRate / 2)⟩ route, ctr + sampleRate / 2)
      else if noteName = "Hi-Hat" then
        (.voice ⟨"drums", noteName, none, volume, time, qadd time (mkRat 1 2),
            noiseBuf rng ctr sampleRate⟩ route, ctr + sampleRate)
      else (.crash, ctr)
    else (.silent, ctr)

/-- The route of a play outcome, when a voice was created. -/
def routeOf (p : PlayResult) : Option Route :=
  match p with
  | .voice _ r => some r
  | _ => none

/-! ### Live scheduler -/

/-- Event resolution of the live tick callback for one track at one
step index: parse the clause, tokenize its sequence; when nonempty,
take the token at `stepIndex % length`; a mapped token produces a
`playSound` invocation `(instrument, mappedNote, volume)`, anything
else produces no voice. -/
def liveResolve (cl : String) (idx : ℕ) : Option (String × String × ℚ) :=
  let td := parseSingleTrackDefinition cl
  let seq := tokenize td.noteSequence
  if 0 < seq.length then
    let tok := seq.getD (idx % seq.length) ""
    match noteMapping tok with
    | some m => some (td.instrumentType, m, td.volume)
    | none => none
  else none

/-- What the tick callback does for one track at one step, including
the non-voice outcomes: rest token `-` does nothing, any other
unmapped token triggers `console.warn`. `none` when the tokenized
sequence is empty. -/
inductive StepAction where
  | play (inst note : String) (vol : ℚ)
  | rest
  | warn (tok : String)
deriving DecidableEq

/-- Tick-callback action of one track at one step (see `liveResolve`). -/
def tickTrackAction (cl : String) (idx : ℕ) : Option StepAction :=
  let td := parseSingleTrackDefinition cl
  let seq := tokenize td.noteSequence
  if 0 < seq.length then
    let tok := seq.getD (idx % seq.length) ""
    some (match noteMapping tok with
      | some m => .play td.instrumentType m td.volume
      | none => if tok = "-" then .rest else .warn tok)
  else none

/-- Step-index advance at the end of each tick:
`playIndexRef.current = (playIndexRef.current + 1) % maxLength`. -/
def advanceIndex (cfg : String) (idx : ℕ) : ℕ :=
  (idx + 1) % computeMaxLength cfg

/-- One full cycle of the live scheduler's event resolution: for each
step index `0 ≤ s < sequenceLength` (outer, by tick), for each track in
parse order (inner), the resolved event with logical onset
`s × tickSec`. -/
def liveEvents (cfg : String) (bpm : ℚ) :
    List (ℚ × String × String × ℚ) :=
  (List.range (computeMaxLength cfg)).flatMap (fun step =>
    (parseAllTrackDefinitions cfg).filterMap (fun cl =>
      (liveResolve cl step).map
        (fun r => (qmul (tickSec bpm) (mkRat step 1), r))))

/-- Outcome of pressing play (`startPlayback`): with no parsed clauses
the scheduler reports there is nothing to play and does not start. -/
inductive StartResult where
  | noTracks
  | started (tracks : List String)
deriving DecidableEq

/-- The guard at the top of `startPlayback`. -/
def startPlayback (cfg : String) : StartResult :=
  let parsedTracks := parseAllTrackDefinitions cfg
  if parsedTracks.length = 0 then .noTracks else .started parsedTracks

/-! ### Offline renderer (`exportToWAV` scheduling) -/

/-- Events scheduled by `exportToWAV` for one clause: the exporter
walks the track's OWN tokens (`parsedSequence.forEach((val, index))`),
scheduling a voice at `(60 / bpm / 4) * index` for each mapped token. -/
def offlineTrackEvents (cl : String) (bpm : ℚ) :
    List (ℚ × String × String × ℚ) :=
  let td := parseSingleTrackDefinition cl
  let seq := tokenize td.noteSequence
  (List.range seq.length).filterMap (fun idx =>
    (noteMapping (seq.getD idx "")).map
      (fun m => (qmul (tickSec bpm) (mkRat idx 1), td.instrumentType, m,
        td.volume)))

/-- All events scheduled by `exportToWAV`, tracks in parse order. -/
def offlineEvents (cfg : String) (bpm : ℚ) :
    List (ℚ × String × String × ℚ) :=
  (parseAllTrackDefinitions cfg).flatMap (fun cl => offlineTrackEvents cl bpm)

/-- Offline rendering of one track's steps into play outcomes,
threading the `Math.random` draw counter: for each token (in order), a
mapped token invokes `playSound` offline at time `tickSec * idx`. -/
def renderSteps (inst : String) (vol bpm : ℚ) (sr : ℕ) (rng : ℕ → Int) :
    List String → ℕ → ℕ → List PlayResult × ℕ
  | [], _, ctr => ([], ctr)
  | tok :: rest, idx, ctr =>
    match noteMapping tok with
    | some m =>
      let p := playSound inst m vol (noteDurationSec bpm) false
        (qmul (tickSec bpm) (mkRat idx 1)) sr rng ctr
      let q := renderSteps inst vol bpm sr rng rest (idx + 1) p.2
      (p.1 :: q.1, q.2)
    | none => renderSteps inst vol bpm sr rng rest (idx + 1) ctr

/-- Offline rendering of a clause list, tracks in parse order. -/
def renderTracks (bpm : ℚ) (sr : ℕ) (rng : ℕ → Int) :
    List String → ℕ → List PlayResult × ℕ
  | [], ctr => ([], ctr)
  | cl :: rest, ctr =>
    let td := parseSingleTrackDefinition cl
    let p := renderSteps td.instrumentType td.volume bpm sr rng
      (tokenize td.noteSequence) 0 ctr
    let q := renderTracks bpm sr rng rest p.2
    (p.1 ++ q.1, q.2)

/-- The full offline render of `exportToWAV` at the voice level: the
sequence of play outcomes (voices with all their synthesis parameters,
including any noise-buffer contents) produced into the offline
context. -/
def offlineRender (cfg : String) (bpm : ℚ) (sr : ℕ) (rng : ℕ → Int) :
    List PlayResult :=
  (renderTracks bpm sr rng (parseAllTrackDefinitions cfg) 0).1

/-! ### Effects bus -/

/-- The shared effect nodes: master gain, delay line, feedback gain. -/
structure EffectsBus where
  masterGain : ℚ
  delayTime : ℚ
  feedbackGain : ℚ
deriving DecidableEq

/-- Node values established by the init `useEffect`: delay 0.25 s,
feedback 0.4, master gain at its default of 1. -/
def initEffectsBus : EffectsBus := ⟨mkRat 1 1, mkRat 1 4, mkRat 2 5⟩

/-- `startPlayback` session setup:
`delayNodeRef.current.delayTime.value = 60 / bpm * 0.5`. -/
def startSessionBus (bus : EffectsBus) (bpm : ℚ) : EffectsBus :=
  { bus with delayTime := qmul (qdiv (mkRat 60 1) bpm) (mkRat 1 2) }

/-- What one tick of the interval callback does to the bus: for every
track (in order) it reassigns `masterGainNodeRef.current.gain.value =
volume` and `feedbackGainRef.current.gain.value = 0.2`. -/
def tickBus (bus : EffectsBus) (parsedTracks : List String) : EffectsBus :=
  parsedTracks.foldl (fun b cl =>
    { b with
        masterGain := (parseSingleTrackDefinition cl).volume,
        feedbackGain := mkRat 1 5 }) bus

/-! ### Scheduler stop -/

/-- The mutable scheduler references: interval handle and step index. -/
structure SchedulerState where
  playLoop : Option ℕ
  playIndex : ℕ
deriving DecidableEq

/-- `stopPlayback`: `clearInterval(playLoopRef.current)`,
`playLoopRef.current = null`, `playIndexRef.current = 0`. -/
def stopPlayback (_s : SchedulerState) : SchedulerState :=
  { playLoop := none, playIndex := 0 }

/-! ### WAV encoder (`audioBufferToWav`) -/

/-- JS `ToInt16` conversion truncates the float toward zero before
taking the low 16 bits; on rationals, truncation toward zero. -/
def jsTrunc (q : ℚ) : Int := if 0 ≤ q then ⌊q⌋ else -⌊-q⌋

/-- One sample through the encoder loop:
`s = Math.max(-1, Math.min(1, x)); s < 0 ? s * 0x8000 : s * 0x7FFF`. -/
def encodeSample (x : ℚ) : Int :=
  let s := max (-1) (min 1 x)
  if s < 0 then jsTrunc (s * 32768) else jsTrunc (s * 32767)

/-- An `AudioBuffer`: channel count, frame count, sample rate, and the
per-channel sample data (`getChannelData(channel)[frame]`). -/
structure AudioBuffer where
  numChannels : ℕ
  length : ℕ
  sampleRate : ℕ
  data : ℕ → ℕ → ℚ

/-- The interleaving double loop, one frame at a time:
`for i < length: for channel < numChannels: push data(channel)[i]`. -/
def interFrames (buf : AudioBuffer) : ℕ → List ℚ
  | 0 => []
  | n + 1 =>
      interFrames buf n ++
        (List.range buf.numChannels).map (fun c => buf.data c n)

/-- The interleaved sample vector built by `audioBufferToWav`. -/
def interleaved (buf : AudioBuffer) : List ℚ := interFrames buf buf.length

/-- Little-endian unsigned 16-bit write (`setUint16(pos, n, true)`). -/
def u16le (n : ℕ) : List ℕ := [n % 256, n / 256 % 256]

/-- Little-endian unsigned 32-bit write (`setUint32(pos, n, true)`). -/
def u32le (n : ℕ) : List ℕ :=
  [n % 256, n / 256 % 256, n / 65536 % 256, n / 16777216 % 256]

/-- Little-endian signed 16-bit write (`setInt16(pos, z, true)`):
two's complement low 16 bits. -/
def i16le (z : Int) : List ℕ :=
  [(z % 65536).toNat % 256, (z % 65536).toNat / 256]

/-- The sample-writing loop: each interleaved sample clamped, scaled and
written as a little-endian 16-bit integer, in order. -/
def samplesBytes : List ℚ → List ℕ
  | [] => []
  | q :: rest => i16le (encodeSample q) ++ samplesBytes rest

/-- `audioBufferToWav` from App.js, as the byte list of the produced
blob: the 44-byte RIFF/WAVE header followed by the interleaved 16-bit
data.  Field for field as written by the `DataView` code. -/
def audioBufferToWav (buf : AudioBuffer) : List ℕ :=
  u32le 0x46464952 ++
  u32le (36 + (interleaved buf).length * 2) ++
  u32le 0x45564157 ++
  u32le 0x20746d66 ++
  u32le 16 ++
  u16le 1 ++
  u16le buf.numChannels ++
  u32le buf.sampleRate ++
  u32le (buf.sampleRate * buf.numChannels * 2) ++
  u16le (buf.numChannels * 2) ++
  u16le 16 ++
  u32le 0x61746164 ++
  u32le ((interleaved buf).length * 2) ++
  samplesBytes (interleaved buf)

/-! ## Theorems

First the bridge lemmas showing the kernel-reducible rational wrappers
are the ordinary field operations, then the claims C1 to C10. -/

theorem qmul_eq (a b : ℚ) : qmul a b = a * b := (Rat.mul_eq_mkRat a b).symm

theorem qadd_eq (a b : ℚ) : qadd a b = a + b := (Rat.add_def' a b).symm

theorem qdiv_eq (a b : ℚ) : qdiv a b = a / b := by
  rw [Rat.div_def', qdiv]
  rcases lt_or_le ((a.den : Int) * b.num) 0 with h | h
  · rw [if_pos h, Rat.mkRat_eq_divInt, Int.ofNat_natAbs_of_nonpos h.le]
    rw [Rat.divInt_neg, neg_neg]
  · rw [if_neg (not_lt.mpr h), Rat.mkRat_eq_divInt, Int.natAbs_of_nonneg h]

/-- Claim C1 (code_bug evaluation).  The claim says parsing
`v=8 [synth=sol,sol,mi]` yields exactly one track record with volume
0.8, instrument `synth` and a three-step sequence, with commas inside a
clause staying in that clause.  The code instead splits the input at
EVERY comma, producing three clauses, and keeps the `[` in the
instrument name: the first clause parses to volume 0.8, instrument
`[synth` (which no synthesis branch recognizes) and the one-token
sequence `sol`.  This theorem evaluates the code at the failing
input. -/
theorem c1_code_eval :
    parseAllTrackDefinitions "v=8 [synth=sol,sol,mi]" =
      ["v=8 [synth=sol", "sol", "mi]"] ∧
    (parseAllTrackDefinitions "v=8 [synth=sol,sol,mi]").length ≠ 1 ∧
    parseSingleTrackDefinition "v=8 [synth=sol" =
      ⟨mkRat 4 5, "[synth", "sol"⟩ ∧
    trackLen "v=8 [synth=sol" = 1 := by decide

/-- Claim C2 counterexample.  The claim says the offline render
resolves, for every track and every step index `0 ≤ s < sequenceLength`,
the same event as the live scheduler (wrapping short tracks).  For the
one-track input `v=8 synth=do` (one step, `sequenceLength = 16`) the
live scheduler resolves 16 events in a full cycle while `exportToWAV`
schedules exactly one, so the two resolutions differ. -/
theorem c2_counterexample :
    (offlineEvents "v=8 synth=do" (mkRat 120 1)).length = 1 ∧
    (liveEvents "v=8 synth=do" (mkRat 120 1)).length = 16 ∧
    offlineEvents "v=8 synth=do" (mkRat 120 1) ≠
      liveEvents "v=8 synth=do" (mkRat 120 1) := by decide

theorem filterMap_congr_mem {α β : Type} (l : List α) (f g : α → Option β)
    (h : ∀ a ∈ l, f a = g a) : l.filterMap f = l.filterMap g := by
  induction l with
  | nil => rfl
  | cons x t ih =>
    rw [List.filterMap_cons, List.filterMap_cons, h x (by simp),
      ih (fun a ha => h a (by simp [ha]))]

theorem offlineTrackEvents_eq_live (cl : String) (bpm : ℚ) :
    offlineTrackEvents cl bpm =
      (List.range (trackLen cl)).filterMap (fun idx =>
        (liveResolve cl idx).map
          (fun r => (qmul (tickSec bpm) (mkRat idx 1), r))) := by
  simp only [offlineTrackEvents, trackLen]
  apply filterMap_congr_mem
  intro idx hidx
  rw [List.mem_range] at hidx
  have hpos : 0 < (tokenize (parseSingleTrackDefinition cl).noteSequence).length :=
    Nat.lt_of_le_of_lt (Nat.zero_le idx) hidx
  simp only [liveResolve, if_pos hpos, Nat.mod_eq_of_lt hidx]
  rcases noteMapping ((tokenize (parseSingleTrackDefinition cl).noteSequence).getD idx "")
    with _ | m
  · rfl
  · rfl

/-- Claim C2, amended.  `exportToWAV` schedules, for every track, one
`playSound` invocation per index `0 ≤ i < ` (that track's OWN length)
at onset `i × tickSec`, resolving instrument, note and volume exactly
as the live scheduler does at step `i`; it does NOT continue out to
`sequenceLength`, so tracks shorter than `sequenceLength` are rendered
once without wrapping. -/
theorem c2_offline_matches_live (cfg : String) (bpm : ℚ) :
    offlineEvents cfg bpm =
      (parseAllTrackDefinitions cfg).flatMap (fun cl =>
        (List.range (trackLen cl)).filterMap (fun idx =>
          (liveResolve cl idx).map
            (fun r => (qmul (tickSec bpm) (mkRat idx 1), r)))) := by
  unfold offlineEvents
  congr 1
  funext cl
  exact offlineTrackEvents_eq_live cl bpm

theorem foldl_max_eq (l : List ℕ) (a : ℕ) :
    l.foldl (fun m x => max m x) a = max a (l.foldr max 0) := by
  induction l generalizing a with
  | nil => simp
  | cons x t ih => simp [List.foldl, List.foldr, ih (max a x), max_assoc]

/-- Claim C3.  `sequenceLength` (the `maxLength` reduce) equals
`max(16, maximum step count over all parsed tracks)`; a track resolves
the token at `stepIndex % its own length` on every tick, so indices
beyond its length wrap instead of padding with silence; and the step
index advances as `(stepIndex + 1) % sequenceLength`. -/
theorem c3_sequence_length_wrap (cfg cl : String) (idx : ℕ) :
    computeMaxLength cfg =
      max 16 (((parseAllTrackDefinitions cfg).map trackLen).foldr max 0) ∧
    liveResolve cl idx = liveResolve cl (idx % trackLen cl) ∧
    tickTrackAction cl idx = tickTrackAction cl (idx % trackLen cl) ∧
    advanceIndex cfg idx = (idx + 1) % computeMaxLength cfg := by
  refine ⟨?_, ?_, ?_, rfl⟩
  · rw [computeMaxLength, ← List.foldl_map, foldl_max_eq]
    rfl
  · simp only [liveResolve, trackLen]
    rw [Nat.mod_mod_of_dvd idx dvd_rfl]
  · simp only [tickTrackAction, trackLen]
    rw [Nat.mod_mod_of_dvd idx dvd_rfl]

/-- Claim C4 counterexample.  Guitar is a non-percussive instrument,
yet `playGuitarNote` fills its noise buffer from `Math.random`, so two
offline renders of the guitar track `v=8 guitar=do` with different
random streams produce different buffers: run-to-run determinism fails
as claimed for "only non-percussive instruments". -/
theorem c4_counterexample :
    offlineRender "v=8 guitar=do" (mkRat 120 1) 1 (fun _ => 0) ≠
      offlineRender "v=8 guitar=do" (mkRat 120 1) 1 (fun _ => 1) := by decide

theorem playSound_no_draw (inst : String)
    (h : inst = "synth" ∨ inst = "piano" ∨ inst = "8bit" ∨ inst = "16bit")
    (note : String) (vol dur t : ℚ) (live : Bool) (sr : ℕ)
    (rng₁ rng₂ : ℕ → Int) (c₁ c₂ : ℕ) :
    (playSound inst note vol dur live t sr rng₁ c₁).1 =
      (playSound inst note vol dur live t sr rng₂ c₂).1 ∧
    (playSound inst note vol dur live t sr rng₁ c₁).2 = c₁ := by
  rcases h with rfl | rfl | rfl | rfl <;>
    · by_cases hn : note = ""
      · simp [playSound, hn]
      · rcases hf : frequencies note with _ | f <;>
          simp [playSound, hn, hf]

theorem renderSteps_no_draw (inst : String)
    (h : inst = "synth" ∨ inst = "piano" ∨ inst = "8bit" ∨ inst = "16bit")
    (vol bpm : ℚ) (sr : ℕ) (toks : List String) :
    ∀ (idx : ℕ) (rng₁ rng₂ : ℕ → Int) (c₁ c₂ : ℕ),
      (renderSteps inst vol bpm sr rng₁ toks idx c₁).1 =
        (renderSteps inst vol bpm sr rng₂ toks idx c₂).1 ∧
      (renderSteps inst vol bpm sr rng₁ toks idx c₁).2 = c₁ := by
  induction toks with
  | nil => intros; exact ⟨rfl, rfl⟩
  | cons tok rest ih =>
    intro idx rng₁ rng₂ c₁ c₂
    simp only [renderSteps]
    rcases noteMapping tok with _ | m <;> dsimp only
    · exact ih (idx + 1) rng₁ rng₂ c₁ c₂
    · have hp := playSound_no_draw inst h m vol (noteDurationSec bpm)
        (qmul (tickSec bpm) (mkRat idx 1)) false sr rng₁ rng₂ c₁ c₂
      have hq := ih (idx + 1) rng₁ rng₂
        (playSound inst m vol (noteDurationSec bpm) false
          (qmul (tickSec bpm) (mkRat idx 1)) sr rng₁ c₁).2
        (playSound inst m vol (noteDurationSec bpm) false
          (qmul (tickSec bpm) (mkRat idx 1)) sr rng₂ c₂).2
      exact ⟨by rw [hp.1, hq.1], by rw [hq.2, hp.2]⟩

theorem renderTracks_no_draw (bpm : ℚ) (sr : ℕ) (tracks : List String)
    (h : ∀ cl ∈ tracks,
      (parseSingleTrackDefinition cl).instrumentType = "synth" ∨
      (parseSingleTrackDefinition cl).instrumentType = "piano" ∨
      (parseSingleTrackDefinition cl).instrumentType = "8bit" ∨
      (parseSingleTrackDefinition cl).instrumentType = "16bit") :
    ∀ (rng₁ rng₂ : ℕ → Int) (c₁ c₂ : ℕ),
      (renderTracks bpm sr rng₁ tracks c₁).1 =
        (renderTracks bpm sr rng₂ tracks c₂).1 ∧
      (renderTracks bpm sr rng₁ tracks c₁).2 = c₁ := by
  induction tracks with
  | nil => intros; exact ⟨rfl, rfl⟩
  | cons cl rest ih =>
    intro rng₁ rng₂ c₁ c₂
    simp only [renderTracks]
    have hp := renderSteps_no_draw _ (h cl (by simp))
      (parseSingleTrackDefinition cl).volume bpm sr
      (tokenize (parseSingleTrackDefinition cl).noteSequence) 0 rng₁ rng₂ c₁ c₂
    have hq := ih (fun c hc => h c (by simp [hc])) rng₁ rng₂
      (renderSteps (parseSingleTrackDefinition cl).instrumentType
        (parseSingleTrackDefinition cl).volume bpm sr rng₁
        (tokenize (parseSingleTrackDefinition cl).noteSequence) 0 c₁).2
      (renderSteps (parseSingleTrackDefinition cl).instrumentType
        (parseSingleTrackDefinition cl).volume bpm sr rng₂
        (tokenize (parseSingleTrackDefinition cl).noteSequence) 0 c₂).2
    exact ⟨by rw [hp.1, hq.1], by rw [hq.2, hp.2]⟩

/-- Claim C4, amended.  Two offline renders of the same track
definition and bpm produce identical outputs provided every parsed
track's instrument is one of `synth`, `piano`, `8bit`, `16bit`: only
those avoid the `Math.random`-filled noise buffers.  (The
non-percussive `guitar` must be excluded as well as the drums: see the
counterexample.) -/
theorem c4_determinism (cfg : String) (bpm : ℚ) (sr : ℕ)
    (h : ∀ cl ∈ parseAllTrackDefinitions cfg,
      (parseSingleTrackDefinition cl).instrumentType = "synth" ∨
      (parseSingleTrackDefinition cl).instrumentType = "piano" ∨
      (parseSingleTrackDefinition cl).instrumentType = "8bit" ∨
      (parseSingleTrackDefinition cl).instrumentType = "16bit")
    (rng₁ rng₂ : ℕ → Int) :
    offlineRender cfg bpm sr rng₁ = offlineRender cfg bpm sr rng₂ :=
  (renderTracks_no_draw bpm sr _ h rng₁ rng₂ 0 0).1

theorem c4_witness :
    (∀ cl ∈ parseAllTrackDefinitions "v=8 synth=do",
      (parseSingleTrackDefinition cl).instrumentType = "synth" ∨
      (parseSingleTrackDefinition cl).instrumentType = "piano" ∨
      (parseSingleTrackDefinition cl).instrumentType = "8bit" ∨
      (parseSingleTrackDefinition cl).instrumentType = "16bit") ∧
    offlineRender "v=8 synth=do" (mkRat 120 1) 1 (fun _ => 0) =
      offlineRender "v=8 synth=do" (mkRat 120 1) 1 (fun _ => 1) :=
  ⟨by decide,
   c4_determinism "v=8 synth=do" (mkRat 120 1) 1 (by decide)
     (fun _ => 0) (fun _ => 1)⟩

theorem clamp_idem (q : ℚ) :
    max (-1) (min 1 (max (-1) (min 1 q))) = max (-1) (min 1 q) := by
  have h1 : max (-1 : ℚ) (min 1 q) ≤ 1 :=
    max_le (by norm_num) (min_le_left _ _)
  rw [min_eq_right h1, ← max_assoc, max_self]

/-- Claim C5.  The WAV encoder first clamps each float sample to
`[-1, 1]` and then scales asymmetrically: a negative clamped sample by
32768 and a non-negative one by 32767; saturated inputs hit exactly
32767 and -32768 (so 1.5 encodes to 32767 and -1.5 to -32768). -/
theorem c5_clamp_scale (q : ℚ) :
    encodeSample q = encodeSample (max (-1) (min 1 q)) ∧
    (1 ≤ q → encodeSample q = 32767) ∧
    (q ≤ -1 → encodeSample q = -32768) ∧
    (-1 ≤ q → q < 0 → encodeSample q = jsTrunc (q * 32768)) ∧
    (0 ≤ q → q ≤ 1 → encodeSample q = jsTrunc (q * 32767)) := by
  refine ⟨?_, ?_, ?_, ?_, ?_⟩
  · simp only [encodeSample, clamp_idem]
  · intro h
    have hmin : min (1 : ℚ) q = 1 := min_eq_left h
    have hmax : max (-1 : ℚ) (1 : ℚ) = 1 := max_eq_right (by norm_num)
    simp only [encodeSample, hmin, hmax]
    rw [if_neg (by norm_num), one_mul]
    rw [jsTrunc, if_pos (by norm_num)]
    rw [show ((32767 : ℚ)) = ((32767 : ℤ) : ℚ) by norm_num, Int.floor_intCast]
  · intro h
    have hmin : min (1 : ℚ) q = q := min_eq_right (h.trans (by norm_num))
    have hmax : max (-1 : ℚ) q = -1 := max_eq_left h
    simp only [encodeSample, hmin, hmax]
    rw [if_pos (by norm_num)]
    rw [show ((-1 : ℚ) * 32768) = ((-32768 : ℤ) : ℚ) by norm_num]
    rw [jsTrunc, if_neg (by norm_num), ← Int.cast_neg, Int.floor_intCast]
    norm_num
  · intro h1 h2
    have hmin : min (1 : ℚ) q = q := min_eq_right (h2.le.trans (by norm_num))
    have hmax : max (-1 : ℚ) q = q := max_eq_right h1
    simp only [encodeSample, hmin, hmax]
    rw [if_pos h2]
  · intro h1 h2
    have hmin : min (1 : ℚ) q = q := min_eq_right h2
    have hmax : max (-1 : ℚ) q = q :=
      max_eq_right ((by norm_num : (-1 : ℚ) ≤ 0).trans h1)
    simp only [encodeSample, hmin, hmax]
    rw [if_neg (not_lt.mpr h1)]

theorem c5_witness :
    (1 : ℚ) ≤ (3 : ℚ)/2 ∧ encodeSample ((3 : ℚ)/2) = 32767 ∧
    (-3 : ℚ)/2 ≤ -1 ∧ encodeSample ((-3 : ℚ)/2) = -32768 :=
  ⟨by norm_num, (c5_clamp_scale ((3 : ℚ)/2)).2.1 (by norm_num),
   by norm_num, (c5_clamp_scale ((-3 : ℚ)/2)).2.2.1 (by norm_num)⟩

theorem samplesBytes_length :
    ∀ l : List ℚ, (samplesBytes l).length = 2 * l.length := by
  intro l
  induction l with
  | nil => rfl
  | cons q t ih => simp [samplesBytes, i16le, List.length_append, ih]; omega

theorem interFrames_length (buf : AudioBuffer) :
    ∀ n, (interFrames buf n).length = n * buf.numChannels := by
  intro n
  induction n with
  | zero => simp [interFrames]
  | succ n ih =>
    simp [interFrames, List.length_append, ih]
    ring

theorem interFrames_getElem (buf : AudioBuffer) (h : buf.numChannels = 2) :
    ∀ n i c, i < n → c < 2 →
      (interFrames buf n)[2 * i + c]? = some (buf.data c i) := by
  intro n
  induction n with
  | zero => intro i c hi _; exact absurd hi (Nat.not_lt_zero i)
  | succ n ih =>
    intro i c hi hc
    rw [interFrames]
    rcases Nat.lt_or_ge i n with h' | h'
    · rw [List.getElem?_append_left (by rw [interFrames_length buf n, h]; omega)]
      exact ih i c h' hc
    · have hin : i = n := by omega
      subst hin
      rw [List.getElem?_append_right (by rw [interFrames_length buf i, h]; omega)]
      rw [interFrames_length buf i, h]
      rw [show 2 * i + c - i * 2 = c by omega]
      interval_cases c <;> rfl

set_option maxHeartbeats 2000000 in
/-- Claim C6.  For a stereo buffer of `N` frames at rate `R`, the WAV
encoder emits a 44-byte little-endian header (`RIFF`, `WAVE`, `fmt `,
`data` markers), PCM format code 1, 2 channels, byte rate `R × 4`,
block align 4, 16 bits per sample, declared data length `N × 2 × 2`,
declared RIFF length `36 + data length`, followed by the
channel-interleaved 16-bit samples (interleaved index `2i + c` holds
frame `i` of channel `c`). -/
theorem c6_wav_header (buf : AudioBuffer) (h : buf.numChannels = 2) :
    (audioBufferToWav buf).length = 44 + 4 * buf.length ∧
    (audioBufferToWav buf).take 4 = [0x52, 0x49, 0x46, 0x46] ∧
    ((audioBufferToWav buf).drop 4).take 4 = u32le (36 + 4 * buf.length) ∧
    ((audioBufferToWav buf).drop 8).take 4 = [0x57, 0x41, 0x56, 0x45] ∧
    ((audioBufferToWav buf).drop 12).take 4 = [0x66, 0x6d, 0x74, 0x20] ∧
    ((audioBufferToWav buf).drop 16).take 4 = u32le 16 ∧
    ((audioBufferToWav buf).drop 20).take 2 = [1, 0] ∧
    ((audioBufferToWav buf).drop 22).take 2 = [2, 0] ∧
    ((audioBufferToWav buf).drop 24).take 4 = u32le buf.sampleRate ∧
    ((audioBufferToWav buf).drop 28).take 4 = u32le (buf.sampleRate * 4) ∧
    ((audioBufferToWav buf).drop 32).take 2 = [4, 0] ∧
    ((audioBufferToWav buf).drop 34).take 2 = [16, 0] ∧
    ((audioBufferToWav buf).drop 36).take 4 = [0x64, 0x61, 0x74, 0x61] ∧
    ((audioBufferToWav buf).drop 40).take 4 = u32le (4 * buf.length) ∧
    (audioBufferToWav buf).drop 44 = samplesBytes (interleaved buf) ∧
    (∀ i c, i < buf.length → c < 2 →
      (interleaved buf)[2 * i + c]? = some (buf.data c i)) := by
  have hlen : (interleaved buf).length = buf.length * 2 := by
    rw [interleaved, interFrames_length, h]
  refine ⟨?_, rfl, ?_, rfl, rfl, rfl, rfl, ?_, rfl, ?_, ?_, rfl, rfl, ?_, rfl, ?_⟩
  · simp [audioBufferToWav, u32le, u16le, List.length_append,
      samplesBytes_length, hlen]
    omega
  · rw [show ((audioBufferToWav buf).drop 4).take 4 =
        u32le (36 + (interleaved buf).length * 2) from rfl, hlen]
    congr 1
    omega
  · rw [show ((audioBufferToWav buf).drop 22).take 2 = u16le buf.numChannels
        from rfl, h]
    rfl
  · rw [show ((audioBufferToWav buf).drop 28).take 4 =
        u32le (buf.sampleRate * buf.numChannels * 2) from rfl, h]
    congr 1
    omega
  · rw [show ((audioBufferToWav buf).drop 32).take 2 =
        u16le (buf.numChannels * 2) from rfl, h]
    rfl
  · rw [show ((audioBufferToWav buf).drop 40).take 4 =
        u32le ((interleaved buf).length * 2) from rfl, hlen]
    congr 1
    omega
  · exact interFrames_getElem buf h buf.length

theorem c6_witness :
    (audioBufferToWav ⟨2, 1, 8000, fun _ _ => mkRat 1 2⟩).length = 44 + 4 * 1 ∧
    (audioBufferToWav ⟨2, 1, 8000, fun _ _ => mkRat 1 2⟩).take 4 =
      [0x52, 0x49, 0x46, 0x46] :=
  ⟨(c6_wav_header ⟨2, 1, 8000, fun _ _ => mkRat 1 2⟩ rfl).1,
   (c6_wav_header ⟨2, 1, 8000, fun _ _ => mkRat 1 2⟩ rfl).2.1⟩

/-- Claim C7 counterexample.  The claim says the effects-bus parameters
(delay time, feedback gain, master gain) are set only at session start
and never modified by the per-tick step.  After one tick on the parsed
track list of `v=8 synth=do`, the tick callback has reassigned both the
master gain (to the track volume 0.8) and the feedback gain (to 0.2),
so the bus differs from its session-start state. -/
theorem c7_counterexample :
    (tickBus (startSessionBus initEffectsBus (mkRat 120 1))
        (parseAllTrackDefinitions "v=8 synth=do")).masterGain ≠
      (startSessionBus initEffectsBus (mkRat 120 1)).masterGain ∧
    (tickBus (startSessionBus initEffectsBus (mkRat 120 1))
        (parseAllTrackDefinitions "v=8 synth=do")).feedbackGain ≠
      (startSessionBus initEffectsBus (mkRat 120 1)).feedbackGain ∧
    tickBus (startSessionBus initEffectsBus (mkRat 120 1))
        (parseAllTrackDefinitions "v=8 synth=do") ≠
      startSessionBus initEffectsBus (mkRat 120 1) := by decide

theorem tickBus_delayTime (tracks : List String) :
    ∀ bus : EffectsBus, (tickBus bus tracks).delayTime = bus.delayTime := by
  induction tracks with
  | nil => intro bus; rfl
  | cons c rest ih => intro bus; exact ih _

theorem tickBus_feedback (tracks : List String) :
    ∀ bus : EffectsBus, tracks ≠ [] →
      (tickBus bus tracks).feedbackGain = mkRat 1 5 := by
  induction tracks with
  | nil => intro bus h; exact absurd rfl h
  | cons c rest ih =>
    intro bus _
    rcases rest with _ | ⟨d, rest'⟩
    · rfl
    · exact ih _ (by simp)

/-- Claim C7, amended.  Only the delay time is a session-start-only
parameter: `startPlayback` sets it to half a beat (`60 / bpm × 0.5`)
and no tick changes it.  The master gain and the feedback gain, by
contrast, are reassigned by the tick callback on every tick with a
nonempty track list (feedback to the constant 0.2; master gain to each
track's parsed volume in turn). -/
theorem c7_delay_time_stable (bus : EffectsBus) (bpm : ℚ)
    (tracks : List String) :
    (startSessionBus bus bpm).delayTime =
      qmul (qdiv (mkRat 60 1) bpm) (mkRat 1 2) ∧
    (tickBus bus tracks).delayTime = bus.delayTime ∧
    (tracks ≠ [] → (tickBus bus tracks).feedbackGain = mkRat 1 5) ∧
    (tracks = [] → tickBus bus tracks = bus) := by
  refine ⟨rfl, tickBus_delayTime tracks bus, tickBus_feedback tracks bus, ?_⟩
  rintro rfl
  rfl

theorem c7_witness :
    (tickBus initEffectsBus ["v=8 synth=do"]).feedbackGain = mkRat 1 5 ∧
    (startSessionBus initEffectsBus (mkRat 120 1)).delayTime =
      qmul (qdiv (mkRat 60 1) (mkRat 120 1)) (mkRat 1 2) :=
  ⟨(c7_delay_time_stable initEffectsBus (mkRat 120 1)
      ["v=8 synth=do"]).2.2.1 (by decide),
   (c7_delay_time_stable initEffectsBus (mkRat 120 1) ["v=8 synth=do"]).1⟩

/-- Claim C8.  `stopPlayback` is idempotent: in any state it cancels
the periodic tick (the interval handle becomes `none`, so no further
ticks can fire) and resets the step index to 0; a second call is a
no-op and leaves the step index at 0. -/
theorem c8_stop_idempotent (s : SchedulerState) :
    stopPlayback (stopPlayback s) = stopPlayback s ∧
    (stopPlayback s).playIndex = 0 ∧
    (stopPlayback s).playLoop = none :=
  ⟨rfl, rfl, rfl⟩

/-- Claim C9.  Parsing is total and never raises (all parser functions
here are total Lean functions); at tick time a token that is not in
`noteMapping` and is not the rest token `-` produces a `console.warn`
diagnostic and no voice (and hence no exception); the concrete token
`xyz` does exactly that; and an input with no recognizable clauses
parses to an empty track list, upon which `startPlayback` reports
there is nothing to play. -/
theorem c9_error_handling (cl : String) (idx : ℕ) :
    (∀ tok, 0 < (tokenize (parseSingleTrackDefinition cl).noteSequence).length →
      tok = (tokenize (parseSingleTrackDefinition cl).noteSequence).getD
        (idx % (tokenize (parseSingleTrackDefinition cl).noteSequence).length) "" →
      noteMapping tok = none → tok ≠ "-" →
      tickTrackAction cl idx = some (StepAction.warn tok)) ∧
    parseAllTrackDefinitions "" = [] ∧
    startPlayback "" = StartResult.noTracks ∧
    tickTrackAction "v=8 synth=xyz" 0 = some (StepAction.warn "xyz") ∧
    startPlayback "v=8 synth=xyz" =
      StartResult.started ["v=8 synth=xyz"] := by
  refine ⟨?_, by decide, by decide, by decide, by decide⟩
  intro tok hlen htok hm hd
  simp only [tickTrackAction, if_pos hlen]
  rw [← htok, hm]
  simp [hd]

theorem c9_witness :
    tickTrackAction "v=8 synth=xyz" 0 = some (StepAction.warn "xyz") ∧
    startPlayback "" = StartResult.noTracks :=
  ⟨(c9_error_handling "v=8 synth=xyz" 0).1 "xyz" (by decide) (by decide)
      (by decide) (by decide),
   (c9_error_handling "" 0).2.2.1⟩

/-- Claim C10.  Whenever `playSound` creates a voice with an offline
context (`context ≠ audioContextRef.current`), the voice's final
output node is connected directly to the context destination — never to
the delay line — so the offline buffer receives no delay/feedback
contribution; with the live context every voice is routed to the master
gain plus a fixed 0.2 send into the delay line. -/
theorem c10_offline_no_delay (inst note : String) (vol dur t : ℚ) (sr : ℕ)
    (rng : ℕ → Int) (ctr : ℕ) :
    (∀ r, routeOf (playSound inst note vol dur false t sr rng ctr).1 = some r →
      r = Route.destination) ∧
    (∀ r, routeOf (playSound inst note vol dur true t sr rng ctr).1 = some r →
      r = Route.masterAndDelay (mkRat 1 5)) := by
  constructor <;>
    · intro r h
      simp only [playSound] at h
      rcases hf : frequencies note with _ | f <;> simp only [hf] at h <;>
        repeat' split at h
      all_goals simp_all [routeOf]

theorem c10_witness :
    routeOf (playSound "synth" "C4" (mkRat 1 1) (mkRat 1 1) false (mkRat 0 1) 1
      (fun _ => 0) 0).1 = some Route.destination ∧
    Route.destination = Route.destination :=
  ⟨by decide,
   (c10_offline_no_delay "synth" "C4" (mkRat 1 1) (mkRat 1 1) (mkRat 0 1) 1
      (fun _ => 0) 0).1 Route.destination (by decide)⟩

end MusicIDE

